import Mathlib

/-!
Verification of the aoui-drive resource ingestion pipeline.

This file gives a shallow embedding of the Go code of the repository:
the resource upload/delete service (internal/features/resource/service,
the version wired with the webhook launcher), the resource repository
error mapping (internal/features/resource/repository/repository.go),
the SQLite schema constraint UNIQUE(bucket_id, hash)
(internal/database/schema/004_resources.sql), and the webhook sender
header construction (WebhookSender.SendWebhook).  Machine integers are
modelled as Nat with explicit reduction mod 2^32 / mod 2^8; byte
streams are lists of Nat below 256; fallible Go calls return Except.
-/

set_option maxRecDepth 100000

namespace AouiDrive

/-! ## SHA-256 (crypto/sha256) over byte lists, 32-bit words as Nat -/

/-- 2^32, the modulus for 32-bit words. -/
def M32 : Nat := 4294967296

/-- 32-bit addition. -/
def add32 (a b : Nat) : Nat := (a + b) % M32

/-- Rotate a 32-bit word right by n bits. -/
def rotr32 (x n : Nat) : Nat := ((x >>> n) ||| (x <<< (32 - n))) % M32

/-- SHA-256 small sigma 0. -/
def ssig0 (x : Nat) : Nat := (rotr32 x 7) ^^^ (rotr32 x 18) ^^^ (x >>> 3)

/-- SHA-256 small sigma 1. -/
def ssig1 (x : Nat) : Nat := (rotr32 x 17) ^^^ (rotr32 x 19) ^^^ (x >>> 10)

/-- SHA-256 big sigma 0. -/
def bsig0 (x : Nat) : Nat := (rotr32 x 2) ^^^ (rotr32 x 13) ^^^ (rotr32 x 22)

/-- SHA-256 big sigma 1. -/
def bsig1 (x : Nat) : Nat := (rotr32 x 6) ^^^ (rotr32 x 11) ^^^ (rotr32 x 25)

/-- SHA-256 choice function; complement of x within 32 bits is x XOR (2^32-1). -/
def ch32 (x y z : Nat) : Nat := (x &&& y) ^^^ ((x ^^^ (M32 - 1)) &&& z)

/-- SHA-256 majority function. -/
def maj32 (x y z : Nat) : Nat := (x &&& y) ^^^ (x &&& z) ^^^ (y &&& z)

/-- The 64 SHA-256 round constants (decimal form of the FIPS 180-4 table). -/
def sha256K : List Nat :=
  [1116352408, 1899447441, 3049323471, 3921009573, 961987163, 1508970993,
   2453635748, 2870763221, 3624381080, 310598401, 607225278, 1426881987,
   1925078388, 2162078206, 2614888103, 3248222580, 3835390401, 4022224774,
   264347078, 604807628, 770255983, 1249150122, 1555081692, 1996064986,
   2554220882, 2821834349, 2952996808, 3210313671, 3336571891, 3584528711,
   113926993, 338241895, 666307205, 773529912, 1294757372, 1396182291,
   1695183700, 1986661051, 2177026350, 2456956037, 2730485921, 2820302411,
   3259730800, 3345764771, 3516065817, 3600352804, 4094571909, 275423344,
   430227734, 506948616, 659060556, 883997877, 958139571, 1322822218,
   1537002063, 1747873779, 1955562222, 2024104815, 2227730452, 2361852424,
   2428436474, 2756734187, 3204031479, 3329325298]

/-- The SHA-256 initial hash value (decimal form). -/
def sha256H0 : List Nat :=
  [1779033703, 3144134277, 1013904242, 2773480762, 1359893119, 2600822924,
   528734635, 1541459225]

/-- Big-endian bytes of n, width w bytes. -/
def natToBytesBE (w n : Nat) : List Nat :=
  match w with
  | 0 => []
  | w + 1 => natToBytesBE w (n / 256) ++ [n % 256]

/-- SHA-256 padding: append 0x80, zeros to 56 mod 64, then the 64-bit
big-endian bit length. -/
def sha256Pad (msg : List Nat) : List Nat :=
  let L := msg.length
  let zeros := (119 - L % 64) % 64
  msg ++ [0x80] ++ List.replicate zeros 0 ++ natToBytesBE 8 ((8 * L) % (2 ^ 64))

/-- Group bytes (big-endian) into 32-bit words. -/
def bytesToWords : List Nat → List Nat
  | a :: b :: c :: d :: rest =>
      ((((a % 256) * 256 + b % 256) * 256 + c % 256) * 256 + d % 256) :: bytesToWords rest
  | _ => []

/-- Extend a 16-word block to the 64-word message schedule, appending k words. -/
def extendW (w : List Nat) : Nat → List Nat
  | 0 => w
  | k + 1 =>
    let n := w.length
    let next := add32 (add32 (ssig1 (w.getD (n - 2) 0)) (w.getD (n - 7) 0))
                      (add32 (ssig0 (w.getD (n - 15) 0)) (w.getD (n - 16) 0))
    extendW (w ++ [next]) k

/-- One SHA-256 compression round; the state is the 8 working words. -/
def sha256Round (w : List Nat) (st : List Nat) (i : Nat) : List Nat :=
  let a := st.getD 0 0
  let b := st.getD 1 0
  let c := st.getD 2 0
  let d := st.getD 3 0
  let e := st.getD 4 0
  let f := st.getD 5 0
  let g := st.getD 6 0
  let h := st.getD 7 0
  let t1 := add32 (add32 (add32 h (bsig1 e)) (add32 (ch32 e f g) (sha256K.getD i 0))) (w.getD i 0)
  let t2 := add32 (bsig0 a) (maj32 a b c)
  [add32 t1 t2, a, b, c, add32 d t1, e, f, g]

/-- Process one 512-bit block: run 64 rounds and add into the hash state. -/
def sha256Block (hs : List Nat) (block : List Nat) : List Nat :=
  let w := extendW block 48
  let fin := (List.range 64).foldl (sha256Round w) hs
  (hs.zip fin).map (fun p => add32 p.1 p.2)

/-- Fold the compression function over successive 16-word blocks. -/
def sha256Blocks (hs : List Nat) : List Nat → List Nat
  | w0 :: w1 :: w2 :: w3 :: w4 :: w5 :: w6 :: w7 ::
    w8 :: w9 :: w10 :: w11 :: w12 :: w13 :: w14 :: w15 :: rest =>
      sha256Blocks
        (sha256Block hs [w0, w1, w2, w3, w4, w5, w6, w7, w8, w9, w10, w11, w12, w13, w14, w15])
        rest
  | _ => hs

/-- The SHA-256 digest of a byte list, as 32 bytes. -/
def sha256Bytes (msg : List Nat) : List Nat :=
  let hs := sha256Blocks sha256H0 (bytesToWords (sha256Pad msg))
  (hs.map (natToBytesBE 4)).flatten

/-- Lowercase hexadecimal digit character. -/
def hexChar (n : Nat) : Char :=
  if n < 10 then Char.ofNat (48 + n) else Char.ofNat (87 + n)

/-- Two lowercase hex characters of a byte (hex.EncodeToString). -/
def byteToHex (b : Nat) : List Char := [hexChar (b / 16 % 16), hexChar (b % 16)]

/-- hex.EncodeToString(sha256.Sum(msg)): the lowercase hex SHA-256 digest. -/
def sha256Hex (msg : List Nat) : String :=
  String.mk ((sha256Bytes msg).map byteToHex).flatten

/-! ## Go standard library pieces used by the service -/

/-- path/filepath Ext: the suffix beginning at the final dot in the final
element of the path, empty if there is no dot.  The scan walks the path
backwards and stops at a path separator. -/
def extRevAux : List Char → List Char → Option (List Char)
  | [], _ => none
  | c :: rest, acc =>
    if c = '/' then none
    else if c = '.' then some (c :: acc)
    else extRevAux rest (c :: acc)

/-- filepath.Ext on a path string. -/
def filepathExt (path : String) : String :=
  match extRevAux path.data.reverse [] with
  | some l => String.mk l
  | none => ""

/-- net/textproto: is the byte a valid RFC 7230 header field token byte. -/
def isValidHeaderFieldByte (n : Nat) : Bool :=
  (65 ≤ n && n ≤ 90) || (97 ≤ n && n ≤ 122) || (48 ≤ n && n ≤ 57) ||
  n == 33 || n == 35 || n == 36 || n == 37 || n == 38 || n == 39 || n == 42 ||
  n == 43 || n == 45 || n == 46 || n == 94 || n == 95 || n == 96 || n == 124 || n == 126

/-- net/textproto canonicalization walk: uppercase the first letter and any
letter following a hyphen, lowercase the rest. -/
def canonAux : Bool → List Char → List Char
  | _, [] => []
  | upper, c :: rest =>
    let n := c.toNat
    let c2 := if upper && (97 ≤ n && n ≤ 122) then Char.ofNat (n - 32)
              else if !upper && (65 ≤ n && n ≤ 90) then Char.ofNat (n + 32)
              else c
    c2 :: canonAux (c2 = '-') rest

/-- textproto.CanonicalMIMEHeaderKey: canonicalize when every byte is a valid
header field byte, otherwise return the key unchanged. -/
def canonicalMIMEHeaderKey (s : String) : String :=
  if s.data.all (fun c => isValidHeaderFieldByte c.toNat) then String.mk (canonAux true s.data)
  else s

/-- net/http Header.Set: store the value under the canonical key, replacing
any previous value for that key. -/
def headerSet (h : List (String × String)) (k v : String) : List (String × String) :=
  let ck := canonicalMIMEHeaderKey k
  h.filter (fun p => !(p.1 == ck)) ++ [(ck, v)]

/-- Header lookup by canonical key. -/
def headerGet (h : List (String × String)) (k : String) : Option String :=
  (h.find? (fun p => p.1 == canonicalMIMEHeaderKey k)).map Prod.snd

/-! ## Data model (internal/database/sqlc rows and resource DTOs) -/

/-- A buckets row: id, name, client_id, is_public (INTEGER flag). -/
structure Bucket where
  id : String
  name : String
  clientID : String
  isPublic : Nat
  deriving DecidableEq

/-- A resources row; created_at is an abstract timestamp.  The schema
(004_resources.sql) declares UNIQUE(bucket_id, hash). -/
structure Resource where
  id : String
  bucketID : String
  hash : String
  size : Nat
  contentType : String
  extension : String
  createdAt : Nat
  deriving DecidableEq

/-- dto.ResourceResponse; publicURL is the Go zero value "" unless set. -/
structure ResourceResponse where
  id : String
  hash : String
  size : Nat
  contentType : String
  extension : String
  createdAt : Nat
  publicURL : String
  deriving DecidableEq

/-- Database-level failures of the INSERT in sqlc CreateResource. -/
inductive DbError
  /-- SQLite UNIQUE constraint violation on (bucket_id, hash). -/
  | uniqueViolation
  /-- any other database failure -/
  | otherFailure
  deriving DecidableEq

/-- Errors surfaced by the resource service. -/
inductive SvcError
  /-- bucketrepo.ErrBucketNotFound (also used when the caller does not own
  the bucket) -/
  | bucketNotFound
  /-- repository.ErrResourceNotFound (mapped from sql.ErrNoRows / zero rows
  affected) -/
  | resourceNotFound
  /-- mime.ExtensionsByType returned an error -/
  | mimeTypeError
  /-- the literal error "file extension not found" -/
  | extensionNotFound
  /-- the wrap "failed to create resource record: %w" around the insert
  failure -/
  | createFailed (cause : DbError)
  deriving DecidableEq

/-- The ValidationError class of the spec taxonomy: a missing or
undeterminable extension. -/
def SvcError.isValidationError : SvcError → Bool
  | .mimeTypeError => true
  | .extensionNotFound => true
  | _ => false

instance {ε α : Type} [DecidableEq ε] [DecidableEq α] : DecidableEq (Except ε α) := by
  intro x y
  cases x <;> cases y
  case error.error a b =>
    exact if h : a = b then isTrue (by rw [h]) else isFalse (by intro hh; cases hh; exact h rfl)
  case ok.ok a b =>
    exact if h : a = b then isTrue (by rw [h]) else isFalse (by intro hh; cases hh; exact h rfl)
  case error.ok a b => exact isFalse (by intro hh; cases hh)
  case ok.error a b => exact isFalse (by intro hh; cases hh)

/-- Event type constant dto.EventResourceNew. -/
def evResourceNew : String := "resource.new"

/-- Event type constant dto.EventResourceDeleted. -/
def evResourceDeleted : String := "resource.deleted"

/-- The blob store: (bucketID, filename) keys under the storage root,
mapped to byte content. -/
def Fs : Type := List ((String × String) × List Nat)

instance : DecidableEq Fs := by
  unfold Fs
  infer_instance

/-- The state the service acts on: the buckets table (read-only here),
the resources table, and the blob directory tree. -/
structure St where
  buckets : List Bucket
  db : List Resource
  fs : Fs
  deriving DecidableEq

/-- Observable actions of one service call, in program order.  A
dispatchLaunched action is the launch of the fire-and-forget webhook
goroutine. -/
inductive Action
  | blobPlaced (bucketID filename : String)
  | rowInserted (r : Resource)
  | blobRemoved (bucketID filename : String)
  | dispatchLaunched (eventType resourceID resourceURL : String)
  | rowDeleted (bucketID hash : String)
  deriving DecidableEq

/-- Ambient configuration: the mime.ExtensionsByType table of the host
(none models the call returning an error) and the PUBLIC_URL setting. -/
structure SysCfg where
  mimeExts : String → Option (List String)
  publicURL : String

/-- Nondeterministic environment of one UploadStream call: rows committed
by concurrent transactions between the dedup check and the insert, a
non-constraint insert failure, failure of the cleanup os.Remove, and the
fresh uuid / timestamp. -/
structure UploadEnv where
  raceRows : List Resource
  insertOtherFailure : Bool
  removeFails : Bool
  newID : String
  now : Nat

/-- Environment of one Delete call: whether a concurrent transaction
removed the row between the lookup and the DELETE. -/
structure DeleteEnv where
  raceDeleted : Bool

/-! ## Resource repository (repository.go) over list states -/

/-- resourceRepository.GetByBucketAndHash: sql.ErrNoRows is mapped to
ErrResourceNotFound. -/
def getByBucketAndHash (db : List Resource) (bucketID hash : String) :
    Except SvcError Resource :=
  match db.find? (fun r => r.bucketID == bucketID && r.hash == hash) with
  | some r => .ok r
  | none => .error .resourceNotFound

/-- resourceRepository.Create via sqlc CreateResource: the INSERT fails
with a UNIQUE constraint violation when a (bucket_id, hash) row exists
(schema 004_resources.sql); the repository passes the raw error through. -/
def createResource (db : List Resource) (otherFailure : Bool) (p : Resource) :
    Except DbError (Resource × List Resource) :=
  if otherFailure then .error .otherFailure
  else if db.any (fun r => r.bucketID == p.bucketID && r.hash == p.hash) then
    .error .uniqueViolation
  else .ok (p, db ++ [p])

/-- resourceRepository.DeleteByBucketAndHash: zero rows affected is mapped
to ErrResourceNotFound. -/
def deleteByBucketAndHash (db : List Resource) (bucketID hash : String) :
    Except SvcError (List Resource) :=
  let remaining := db.filter (fun r => !(r.bucketID == bucketID && r.hash == hash))
  if remaining.length == db.length then .error .resourceNotFound
  else .ok remaining

/-- os.Rename of the temp file onto the final path (overwrites an existing
file at that path). -/
def fsPlace (fs : Fs) (key : String × String) (content : List Nat) : Fs :=
  fs.filter (fun e => !(e.1 == key)) ++ [(key, content)]

/-- os.Remove of a blob path. -/
def fsRemove (fs : Fs) (key : String × String) : Fs :=
  fs.filter (fun e => !(e.1 == key))

/-! ## Resource service (the unnamed service file, part_008) -/

/-- getExtensionFromContentType: mime.ExtensionsByType error, empty list,
or first extension of the list. -/
def getExtensionFromContentType (mimeExts : String → Option (List String))
    (contentType : String) : Except SvcError String :=
  match mimeExts contentType with
  | none => .error .mimeTypeError
  | some [] => .error .extensionNotFound
  | some (e :: _) => .ok e

/-- Lines 96-98 of UploadStream: a non-empty extension not starting with a
dot gets a dot prepended. -/
def normalizeExt (ext : String) : String :=
  match ext.data with
  | [] => ext
  | c :: _ => if c ≠ '.' then "." ++ ext else ext

/-- buildFilename: hash concatenated with the (possibly empty) extension. -/
def buildFilename (hash extension : String) : String :=
  if extension ≠ "" then hash ++ extension else hash

/-- resourceService.buildPublicURL. -/
def buildPublicURL (publicURL bucketID hash extension : String) : String :=
  let filename := buildFilename hash extension
  if publicURL ≠ "" then publicURL ++ "/public/" ++ bucketID ++ "/" ++ filename
  else "/public/" ++ bucketID ++ "/" ++ filename

/-- resourceService.buildDownloadURL. -/
def buildDownloadURL (publicURL bucketID hash extension : String) : String :=
  if publicURL ≠ "" then publicURL ++ "/resources/" ++ bucketID ++ "/" ++ hash ++ extension
  else "/resources/" ++ bucketID ++ "/" ++ hash ++ extension

/-- The dto.ResourceResponse built from a row, with PublicURL set when the
bucket is public. -/
def respOf (cfg : SysCfg) (bucket : Bucket) (r : Resource) : ResourceResponse :=
  { id := r.id, hash := r.hash, size := r.size, contentType := r.contentType,
    extension := r.extension, createdAt := r.createdAt,
    publicURL := if bucket.isPublic == 1 then buildPublicURL cfg.publicURL bucket.id r.hash r.extension
                 else "" }

/-- Lines 87-95 of UploadStream: use the provided extension or fall back to
the content type. -/
def resolveStreamExt (mimeExts : String → Option (List String))
    (contentType extension : String) : Except SvcError String :=
  if extension == "" then getExtensionFromContentType mimeExts contentType
  else .ok extension

/-- resourceService.UploadStream with the webhook launcher wired (the
service version taking webhookHeaders).  Returns the call result, the
post-state and the trace of observable actions in program order. -/
def uploadStreamE (cfg : SysCfg) (env : UploadEnv) (st : St)
    (clientID bucketID contentType extension : String) (content : List Nat) :
    Except SvcError ResourceResponse × St × List Action :=
  match st.buckets.find? (fun b => b.id == bucketID) with
  | none => (.error .bucketNotFound, st, [])
  | some bucket =>
    if bucket.clientID == clientID then
      let size := content.length
      let hash := sha256Hex content
      match resolveStreamExt cfg.mimeExts contentType extension with
      | .error e => (.error e, st, [])
      | .ok ext0 =>
        let ext := normalizeExt ext0
        match getByBucketAndHash st.db bucket.id hash with
        | .ok existing => (.ok (respOf cfg bucket existing), st, [])
        | .error _ =>
          let filename := buildFilename hash ext
          let fs1 := fsPlace st.fs (bucket.id, filename) content
          let dbAtInsert := st.db ++ env.raceRows
          match createResource dbAtInsert env.insertOtherFailure
              { id := env.newID, bucketID := bucket.id, hash := hash, size := size,
                contentType := contentType, extension := ext, createdAt := env.now } with
          | .error e =>
            (.error (.createFailed e),
             { st with db := dbAtInsert,
                       fs := if env.removeFails then fs1 else fsRemove fs1 (bucket.id, filename) },
             [.blobPlaced bucket.id filename] ++
               (if env.removeFails then [] else [.blobRemoved bucket.id filename]))
          | .ok (r, db2) =>
            (.ok (respOf cfg bucket r),
             { st with db := db2, fs := fs1 },
             [.blobPlaced bucket.id filename, .rowInserted r,
              .dispatchLaunched evResourceNew r.id
                (buildDownloadURL cfg.publicURL bucket.id r.hash r.extension)])
    else (.error .bucketNotFound, st, [])

/-- UploadStream under the sequential, failure-free environment. -/
def uploadStream (cfg : SysCfg) (newID : String) (now : Nat) (st : St)
    (clientID bucketID contentType extension : String) (content : List Nat) :
    Except SvcError ResourceResponse × St × List Action :=
  uploadStreamE cfg
    { raceRows := [], insertOtherFailure := false, removeFails := false,
      newID := newID, now := now }
    st clientID bucketID contentType extension content

/-- resourceService.UploadFile: default the part content type, take the
extension from the original file name and delegate to UploadStream. -/
def uploadFileE (cfg : SysCfg) (env : UploadEnv) (st : St)
    (clientID bucketID fileName fileContentType : String) (content : List Nat) :
    Except SvcError ResourceResponse × St × List Action :=
  let contentType := if fileContentType == "" then "application/octet-stream"
                     else fileContentType
  let extension := filepathExt fileName
  uploadStreamE cfg env st clientID bucketID contentType extension content

/-- resourceService.Delete with the webhook launcher wired.  Note the
webhook goroutine launch sits before the metadata delete in the source. -/
def deleteE (cfg : SysCfg) (env : DeleteEnv) (st : St)
    (clientID bucketID hash : String) :
    Except SvcError Unit × St × List Action :=
  match st.buckets.find? (fun b => b.id == bucketID) with
  | none => (.error .bucketNotFound, st, [])
  | some bucket =>
    if bucket.clientID == clientID then
      match getByBucketAndHash st.db bucketID hash with
      | .error e => (.error e, st, [])
      | .ok resource =>
        let url := buildDownloadURL cfg.publicURL bucket.id resource.hash resource.extension
        let acts0 := [Action.dispatchLaunched evResourceDeleted resource.id url]
        let dbNow := if env.raceDeleted
                     then st.db.filter (fun r => !(r.bucketID == bucketID && r.hash == hash))
                     else st.db
        match deleteByBucketAndHash dbNow bucketID hash with
        | .error e => (.error e, { st with db := dbNow }, acts0)
        | .ok db2 =>
          let filename := buildFilename resource.hash resource.extension
          (.ok (), { st with db := db2, fs := fsRemove st.fs (bucket.id, filename) },
           acts0 ++ [.rowDeleted bucketID hash, .blobRemoved bucket.id filename])
    else (.error .bucketNotFound, st, [])

/-- Delete under the sequential environment. -/
def deleteResource (cfg : SysCfg) (st : St) (clientID bucketID hash : String) :
    Except SvcError Unit × St × List Action :=
  deleteE cfg { raceDeleted := false } st clientID bucketID hash

/-! ## Webhook sender header construction (WebhookSender.SendWebhook) -/

/-- Fold Header.Set over a list of name/value pairs. -/
def applyHeaders (h : List (String × String)) (l : List (String × String)) :
    List (String × String) :=
  l.foldl (fun acc p => headerSet acc p.1 p.2) h

/-- The three default headers set first by SendWebhook. -/
def defaultWebhookHeaders (eventType : String) : List (String × String) :=
  applyHeaders []
    [("Content-Type", "application/json"),
     ("User-Agent", "AOUI-Drive-Webhook/1.0"),
     ("X-Webhook-Event", eventType)]

/-- The final header set of the outbound webhook request: defaults, then
the subscription's configured headers, then the caller-supplied extra
headers, each layer applied with Header.Set. -/
def buildWebhookHeaders (eventType : String)
    (configured extra : List (String × String)) : List (String × String) :=
  applyHeaders (applyHeaders (defaultWebhookHeaders eventType) configured) extra

/-! ## Concrete fixtures used by witnesses and counterexamples -/

/-- A mime table mapping image/png to .png and nothing else. -/
def cfgPng : SysCfg :=
  { mimeExts := fun ct => if ct == "image/png" then some [".png"] else none,
    publicURL := "" }

/-- A host with an empty mime table. -/
def cfgNone : SysCfg := { mimeExts := fun _ => none, publicURL := "" }

/-- A private bucket owned by client C. -/
def bucketB : Bucket := { id := "B", name := "bucket-b", clientID := "C", isPublic := 0 }

/-- Initial state: one bucket, no resources, no blobs. -/
def stB : St := { buckets := [bucketB], db := [], fs := [] }

/-- A failure-free sequential upload environment. -/
def envN : UploadEnv :=
  { raceRows := [], insertOtherFailure := false, removeFails := false, newID := "N", now := 3 }

/-- The resources row committed by a concurrent winning upload of the
empty content. -/
def winnerRow : Resource :=
  { id := "W", bucketID := "B", hash := sha256Hex [], size := 0,
    contentType := "text/plain", extension := ".bin", createdAt := 1 }

/-- An upload environment in which the concurrent winner's row lands
between the dedup check and our insert. -/
def raceEnv : UploadEnv :=
  { raceRows := [winnerRow], insertOtherFailure := false, removeFails := false,
    newID := "N", now := 2 }


/-- An upload environment whose insert fails for a non-constraint reason. -/
def failEnv : UploadEnv :=
  { raceRows := [], insertOtherFailure := true, removeFails := false, newID := "N", now := 4 }

/-- The row created by the witness upload of the two bytes 00 01. -/
def row01 : Resource :=
  { id := "N", bucketID := "B", hash := sha256Hex [0, 1], size := 2,
    contentType := "text/plain", extension := ".bin", createdAt := 3 }

/-- The response of the witness upload of the two bytes 00 01. -/
def resp01 : ResourceResponse :=
  { id := "N", hash := sha256Hex [0, 1], size := 2, contentType := "text/plain",
    extension := ".bin", createdAt := 3, publicURL := "" }

/-- The state after the witness upload of the two bytes 00 01. -/
def st01 : St :=
  { buckets := [bucketB], db := [row01],
    fs := [(("B", buildFilename (sha256Hex [0, 1]) ".bin"), [0, 1])] }

/-- The trace of the witness upload of the two bytes 00 01. -/
def tr01 : List Action :=
  [.blobPlaced "B" (buildFilename (sha256Hex [0, 1]) ".bin"), .rowInserted row01,
   .dispatchLaunched evResourceNew "N" (buildDownloadURL "" "B" (sha256Hex [0, 1]) ".bin")]

/-- Scan a trace in program order and check that every dispatch launch of a
created (resp. deleted) event is preceded by the corresponding row insert
(resp. row delete); the two flags say whether such a commit has occurred. -/
def dispatchAfterCommitB : List Action → Bool → Bool → Bool
  | [], _, _ => true
  | a :: rest, ins, del =>
    match a with
    | .rowInserted _ => dispatchAfterCommitB rest true del
    | .rowDeleted _ _ => dispatchAfterCommitB rest ins true
    | .dispatchLaunched et _ _ =>
        (if et = evResourceNew then ins else if et = evResourceDeleted then del else true) &&
        dispatchAfterCommitB rest ins del
    | _ => dispatchAfterCommitB rest ins del

/-- The state holding the winner row and its blob, used to run a delete. -/
def stDel : St :=
  { buckets := [bucketB], db := [winnerRow],
    fs := [(("B", buildFilename (sha256Hex []) ".bin"), [])] }

/-- The value of the last pair of the list whose canonical key matches the
canonical key of n, if any. -/
def findLast (l : List (String × String)) (n : String) : Option String :=
  (l.reverse.find? (fun p => canonicalMIMEHeaderKey p.1 == canonicalMIMEHeaderKey n)).map
    Prod.snd
end AouiDrive

namespace AouiDrive

/-- Claim C9: an upload that hits the dedup path (a row for the bucket and
digest already exists) leaves the whole state unchanged, returns the
existing row's id, digest, size, content type, extension and creation
time — discarding the newly declared media type and resolved extension —
and dispatches no notification event (the trace is empty). -/
theorem dedup_hit_is_pure_read (cfg : SysCfg) (env : UploadEnv) (st : St)
    (clientID bucketID contentType extension : String) (content : List Nat)
    (bucket : Bucket) (ext0 : String) (r : Resource)
    (hb : st.buckets.find? (fun b => b.id == bucketID) = some bucket)
    (hown : bucket.clientID = clientID)
    (hres : resolveStreamExt cfg.mimeExts contentType extension = .ok ext0)
    (hhit : getByBucketAndHash st.db bucket.id (sha256Hex content) = .ok r) :
    uploadStreamE cfg env st clientID bucketID contentType extension content =
      (.ok (respOf cfg bucket r), st, []) ∧
    (respOf cfg bucket r).id = r.id ∧ (respOf cfg bucket r).hash = r.hash ∧
    (respOf cfg bucket r).size = r.size ∧
    (respOf cfg bucket r).contentType = r.contentType ∧
    (respOf cfg bucket r).extension = r.extension ∧
    (respOf cfg bucket r).createdAt = r.createdAt := by
  have hcl : (bucket.clientID == clientID) = true := by simp [hown]
  refine ⟨?_, rfl, rfl, rfl, rfl, rfl, rfl⟩
  simp only [uploadStreamE, hb, hcl, if_true, hres, hhit]

/-- Witness for C9 at a concrete state holding one resource row. -/
theorem dedup_hit_is_pure_read_witness :
    uploadStreamE cfgNone envN
        { buckets := [bucketB], db := [winnerRow], fs := [(("B", "x.bin"), [])] }
        "C" "B" "application/json" ".json" [] =
      (.ok (respOf cfgNone bucketB winnerRow),
       { buckets := [bucketB], db := [winnerRow], fs := [(("B", "x.bin"), [])] }, []) ∧
    (respOf cfgNone bucketB winnerRow).contentType = "text/plain" := by
  refine ⟨(dedup_hit_is_pure_read cfgNone envN _ "C" "B" "application/json" ".json" []
    bucketB ".json" winnerRow (by decide) (by decide) (by decide) (by decide)).1, by decide⟩

/-- Claim C2, counterexample: with an empty table at the dedup check and a
concurrent winner's (bucket, digest) row committed before our insert, the
pipeline returns the wrapped unique-violation error — not the existing
resource — so losing the race is not treated as a successful dedup. -/
theorem race_lost_returns_error :
    (uploadStreamE cfgNone raceEnv stB "C" "B" "text/plain" ".bin" []).1 =
      .error (.createFailed .uniqueViolation) := by decide

/-- Claim C2, amended: the duplicate-insert failure is enforced by the data
layer (the UNIQUE(bucket_id, hash) constraint) and is distinguishable from
the not-found error, but the pipeline does not treat it as a successful
dedup: it surfaces the wrapped insert error to the caller. -/
theorem race_lost_distinguishable (cfg : SysCfg) (env : UploadEnv) (st : St)
    (clientID bucketID contentType extension : String) (content : List Nat)
    (bucket : Bucket) (ext0 : String)
    (hb : st.buckets.find? (fun b => b.id == bucketID) = some bucket)
    (hown : bucket.clientID = clientID)
    (hres : resolveStreamExt cfg.mimeExts contentType extension = .ok ext0)
    (hmiss : getByBucketAndHash st.db bucket.id (sha256Hex content) = .error .resourceNotFound)
    (hrace : (st.db ++ env.raceRows).any
        (fun r => r.bucketID == bucket.id && r.hash == sha256Hex content) = true)
    (hnof : env.insertOtherFailure = false) :
    (uploadStreamE cfg env st clientID bucketID contentType extension content).1 =
      .error (.createFailed .uniqueViolation) ∧
    SvcError.createFailed DbError.uniqueViolation ≠ SvcError.resourceNotFound := by
  have hcl : (bucket.clientID == clientID) = true := by simp [hown]
  have hcreate : createResource (st.db ++ env.raceRows) env.insertOtherFailure
      { id := env.newID, bucketID := bucket.id, hash := sha256Hex content,
        size := content.length, contentType := contentType,
        extension := normalizeExt ext0, createdAt := env.now } =
      .error .uniqueViolation := by
    simp only [createResource, hnof, if_false, Bool.false_eq_true]
    rw [if_pos hrace]
  refine ⟨?_, by simp⟩
  simp only [uploadStreamE, hb, hcl, if_true, hres, hmiss, hcreate]

/-- Witness for the amended C2 theorem at the concrete race fixtures. -/
theorem race_lost_distinguishable_witness :
    (uploadStreamE cfgNone raceEnv stB "C" "B" "text/plain" ".bin" []).1 =
      .error (.createFailed .uniqueViolation) ∧
    SvcError.createFailed DbError.uniqueViolation ≠ SvcError.resourceNotFound :=
  race_lost_distinguishable cfgNone raceEnv stB "C" "B" "text/plain" ".bin" []
    bucketB ".bin" (by decide) (by decide) (by decide) (by decide) (by decide) (by decide)

/-- A successful insert returns exactly the row it was given, appended to
the table. -/
theorem createResource_ok {db : List Resource} {of : Bool} {p r : Resource}
    {db2 : List Resource} (h : createResource db of p = .ok (r, db2)) :
    r = p ∧ db2 = db ++ [p] := by
  unfold createResource at h
  split at h
  · cases h
  · split at h
    · cases h
    · cases h
      exact ⟨rfl, rfl⟩

/-- An extension-resolution failure is one of the two validation errors. -/
theorem getExtensionFromContentType_error {m : String → Option (List String)}
    {ct : String} {e : SvcError} (h : getExtensionFromContentType m ct = .error e) :
    e.isValidationError = true := by
  unfold getExtensionFromContentType at h
  cases hm : m ct with
  | none => rw [hm] at h; cases h; rfl
  | some l =>
    cases l with
    | nil => rw [hm] at h; cases h; rfl
    | cons a rest => rw [hm] at h; cases h

/-- Claim C4, counterexample: uploading with the explicit extension "jpg"
(no leading dot) stores the row with extension ".jpg", not "jpg", so the
resource is not stored with the literally supplied extension. -/
theorem explicit_extension_counterexample :
    (uploadStream cfgPng "N" 3 stB "C" "B" "image/png" "jpg" []).2.1.db.map
        Resource.extension = [".jpg"] ∧
    (".jpg" : String) ≠ "jpg" := by decide

/-- Claim C4, amended: with a non-empty explicit extension the media-type
mapping is never consulted (the call's outcome is identical under any two
mime tables), every row the call inserts carries the explicit extension
normalized to a leading dot — unchanged when it already starts with '.' —
and a multipart upload passes the extension taken from the uploaded file's
name into the stream pipeline. -/
theorem explicit_extension_wins (f g : String → Option (List String)) (pub : String)
    (env : UploadEnv) (st : St) (clientID bucketID contentType extension : String)
    (content : List Nat) (hex : extension ≠ "") :
    uploadStreamE ⟨f, pub⟩ env st clientID bucketID contentType extension content =
      uploadStreamE ⟨g, pub⟩ env st clientID bucketID contentType extension content ∧
    (∀ r, Action.rowInserted r ∈
        (uploadStreamE ⟨f, pub⟩ env st clientID bucketID contentType extension content).2.2 →
      r.extension = normalizeExt extension) ∧
    (∀ c cs, extension.data = c :: cs → c = '.' → normalizeExt extension = extension) ∧
    (∀ fileName fct,
      uploadFileE ⟨f, pub⟩ env st clientID bucketID fileName fct content =
        uploadStreamE ⟨f, pub⟩ env st clientID bucketID
          (if fct == "" then "application/octet-stream" else fct)
          (filepathExt fileName) content) := by
  have hbe : (extension == "") = false := by
    simp only [beq_eq_false_iff_ne, ne_eq]
    exact hex
  have hres1 : resolveStreamExt f contentType extension = .ok extension := by
    simp [resolveStreamExt, hbe]
  have hres2 : resolveStreamExt g contentType extension = .ok extension := by
    simp [resolveStreamExt, hbe]
  refine ⟨?_, ?_, ?_, fun fileName fct => rfl⟩
  · simp only [uploadStreamE, hres1, hres2, respOf]
  · intro r hr
    simp only [uploadStreamE, hres1] at hr
    split at hr
    · simp at hr
    · split at hr
      · split at hr
        · simp at hr
        · split at hr
          · rename_i heq
            simp only [List.mem_append, List.mem_singleton] at hr
            rcases hr with hr | hr
            · simp at hr
            · split at hr <;> simp at hr
          · rename_i r2 db2 heq
            simp only [List.mem_cons, List.not_mem_nil, or_false] at hr
            rcases hr with hr | hr | hr
            · cases hr
            · cases hr
              exact congrArg Resource.extension (createResource_ok heq).1
            · cases hr
      · simp at hr
  · intro c cs hdata hc
    unfold normalizeExt
    rw [hdata]
    simp [hc]

/-- Witness for the amended C4 theorem: concrete non-empty extension "jpg",
two different mime tables, identical outcomes. -/
theorem explicit_extension_wins_witness :
    ("jpg" : String) ≠ "" ∧
    uploadStreamE ⟨cfgPng.mimeExts, ""⟩ envN stB "C" "B" "image/png" "jpg" [] =
      uploadStreamE ⟨cfgNone.mimeExts, ""⟩ envN stB "C" "B" "image/png" "jpg" [] :=
  ⟨by decide,
   (explicit_extension_wins cfgPng.mimeExts cfgNone.mimeExts "" envN stB
      "C" "B" "image/png" "jpg" [] (by decide)).1⟩

/-- Claim C5, counterexample: a multipart upload whose file name "photo"
has no extension does not store the extension as empty — with content type
image/png the stored row gets ".png" from the media-type mapping. -/
theorem multipart_no_ext_counterexample :
    filepathExt "photo" = "" ∧
    (uploadFileE cfgPng envN stB "C" "B" "photo" "image/png" []).2.1.db.map
        Resource.extension = [".png"] ∧
    ((".png" : String) ≠ "") := by decide

/-- Claim C5, amended: a streaming upload with no explicit extension and no
media-type mapping fails with a ValidationError-class error, and a
multipart upload whose file name has no extension falls back to the very
same media-type derivation as a streaming upload with an absent extension
(it does not simply store the extension as empty). -/
theorem missing_extension_behaviour (cfg : SysCfg) (env : UploadEnv) (st : St)
    (clientID bucketID contentType extension : String) (content : List Nat)
    (bucket : Bucket) (e : SvcError)
    (hb : st.buckets.find? (fun b => b.id == bucketID) = some bucket)
    (hown : bucket.clientID = clientID)
    (hext : extension = "")
    (hct : getExtensionFromContentType cfg.mimeExts contentType = .error e) :
    uploadStreamE cfg env st clientID bucketID contentType extension content =
      (.error e, st, []) ∧
    e.isValidationError = true ∧
    (∀ fileName fct, filepathExt fileName = "" →
      uploadFileE cfg env st clientID bucketID fileName fct content =
        uploadStreamE cfg env st clientID bucketID
          (if fct == "" then "application/octet-stream" else fct) "" content) := by
  have hcl : (bucket.clientID == clientID) = true := by simp [hown]
  have hres : resolveStreamExt cfg.mimeExts contentType extension = .error e := by
    simp [resolveStreamExt, hext, hct]
  refine ⟨?_, getExtensionFromContentType_error hct, ?_⟩
  · simp only [uploadStreamE, hb, hcl, if_true, hres]
  · intro fileName fct hfn
    simp only [uploadFileE, hfn]

/-- Witness for the amended C5 theorem: empty mime table, streaming upload
with no extension fails with the mime lookup error. -/
theorem missing_extension_behaviour_witness :
    uploadStreamE cfgNone envN stB "C" "B" "text/plain" "" [] =
      (.error .mimeTypeError, stB, []) ∧
    SvcError.isValidationError .mimeTypeError = true :=
  ⟨(missing_extension_behaviour cfgNone envN stB "C" "B" "text/plain" "" []
      bucketB .mimeTypeError (by decide) (by decide) rfl (by decide)).1,
   (missing_extension_behaviour cfgNone envN stB "C" "B" "text/plain" "" []
      bucketB .mimeTypeError (by decide) (by decide) rfl (by decide)).2.1⟩

/-- The normalized extension is empty or begins with the dot separator. -/
theorem normalizeExt_empty_or_dot (s : String) :
    normalizeExt s = "" ∨ (normalizeExt s).data.head? = some '.' := by
  cases s with
  | mk data =>
    cases data with
    | nil => left; rfl
    | cons c cs =>
      by_cases hc : c = '.'
      · right
        simp [normalizeExt, hc]
      · right
        simp [normalizeExt, hc, String.data_append]

/-- Claim C10: every resource row inserted and every blob placed by the
upload pipeline carries an extension that is empty or begins with '.', and
a non-empty extension supplied without a leading dot is normalized by
prepending '.' (lines 96-98) before both the placement and the insert. -/
theorem extension_always_dotted (cfg : SysCfg) (env : UploadEnv) (st : St)
    (clientID bucketID contentType extension : String) (content : List Nat) :
    (∀ r, Action.rowInserted r ∈
        (uploadStreamE cfg env st clientID bucketID contentType extension content).2.2 →
      r.extension = "" ∨ r.extension.data.head? = some '.') ∧
    (∀ bid fn, Action.blobPlaced bid fn ∈
        (uploadStreamE cfg env st clientID bucketID contentType extension content).2.2 →
      ∃ ext, fn = buildFilename (sha256Hex content) ext ∧
        (ext = "" ∨ ext.data.head? = some '.')) ∧
    (∀ s c cs, s.data = c :: cs → c ≠ '.' → normalizeExt s = "." ++ s) := by
  refine ⟨?_, ?_, ?_⟩
  · intro r hr
    simp only [uploadStreamE] at hr
    split at hr
    · simp at hr
    · split at hr
      · split at hr
        · simp at hr
        · split at hr
          · simp at hr
          · split at hr
            · simp only [List.mem_append, List.mem_singleton] at hr
              rcases hr with hr | hr
              · simp at hr
              · split at hr <;> simp at hr
            · rename_i heq
              simp only [List.mem_cons, List.not_mem_nil, or_false] at hr
              rcases hr with hr | hr | hr
              · cases hr
              · cases hr
                rw [congrArg Resource.extension (createResource_ok heq).1]
                exact normalizeExt_empty_or_dot _
              · cases hr
      · simp at hr
  · intro bid fn hr
    simp only [uploadStreamE] at hr
    split at hr
    · simp at hr
    · split at hr
      · split at hr
        · simp at hr
        · split at hr
          · simp at hr
          · split at hr
            · simp only [List.mem_append, List.mem_singleton] at hr
              rcases hr with hr | hr
              · cases hr
                exact ⟨_, rfl, normalizeExt_empty_or_dot _⟩
              · split at hr <;> simp at hr
            · simp only [List.mem_cons, List.not_mem_nil, or_false] at hr
              rcases hr with hr | hr | hr
              · cases hr
                exact ⟨_, rfl, normalizeExt_empty_or_dot _⟩
              · cases hr
              · cases hr
      · simp at hr
  · intro s c cs hdata hc
    unfold normalizeExt
    rw [hdata]
    simp [hc]

/-- Witness for C10: the normalization clause at the concrete input "jpg". -/
theorem extension_always_dotted_witness : normalizeExt "jpg" = "." ++ "jpg" :=
  (extension_always_dotted cfgNone envN stB "C" "B" "text/plain" ".b" []).2.2
    "jpg" 'j' ['p', 'g'] rfl (by decide)

/-- A removed blob key is not found in the store afterwards. -/
theorem find?_fsRemove (fs : Fs) (key : String × String) :
    (fsRemove fs key).find? (fun en => en.1 == key) = none := by
  induction fs with
  | nil => rfl
  | cons a t ih =>
    unfold fsRemove at ih ⊢
    by_cases h : (a.1 == key) = true
    · simp [List.filter, h, ih]
    · simp only [Bool.not_eq_true] at h
      simp [List.filter, h, List.find?, ih]

/-- Claim C6: when the metadata insert fails after the blob has been placed
at its final path, the pipeline removes the just-placed blob and surfaces
exactly the wrapped insert error; the outcome is identical whether or not
the cleanup removal itself fails, and when the removal succeeds no blob
remains at the final path in the returned state. -/
theorem insert_failure_cleanup (cfg : SysCfg) (env : UploadEnv) (st : St)
    (clientID bucketID contentType extension : String) (content : List Nat)
    (bucket : Bucket) (ext0 : String) (e : DbError)
    (hb : st.buckets.find? (fun b => b.id == bucketID) = some bucket)
    (hown : bucket.clientID = clientID)
    (hres : resolveStreamExt cfg.mimeExts contentType extension = .ok ext0)
    (hmiss : getByBucketAndHash st.db bucket.id (sha256Hex content) = .error .resourceNotFound)
    (hfail : createResource (st.db ++ env.raceRows) env.insertOtherFailure
        { id := env.newID, bucketID := bucket.id, hash := sha256Hex content,
          size := content.length, contentType := contentType,
          extension := normalizeExt ext0, createdAt := env.now } = .error e) :
    (uploadStreamE cfg env st clientID bucketID contentType extension content).1 =
      .error (.createFailed e) ∧
    (∀ b1 b2 : Bool,
      (uploadStreamE cfg { env with removeFails := b1 } st clientID bucketID
          contentType extension content).1 =
      (uploadStreamE cfg { env with removeFails := b2 } st clientID bucketID
          contentType extension content).1) ∧
    (env.removeFails = false →
      ((uploadStreamE cfg env st clientID bucketID contentType extension content).2.1.fs.find?
        (fun en => en.1 ==
          (bucket.id, buildFilename (sha256Hex content) (normalizeExt ext0)))) = none) := by
  have hcl : (bucket.clientID == clientID) = true := by simp [hown]
  refine ⟨?_, ?_, ?_⟩
  · simp only [uploadStreamE, hb, hcl, if_true, hres, hmiss, hfail]
  · intro b1 b2
    simp only [uploadStreamE, hb, hcl, if_true, hres, hmiss, hfail]
  · intro hrm
    simp only [uploadStreamE, hb, hcl, if_true, hres, hmiss, hfail, hrm,
      Bool.false_eq_true, if_false]
    exact find?_fsRemove _ _

/-- Witness for C6: a concrete upload whose insert fails; the wrapped
insert error is surfaced. -/
theorem insert_failure_cleanup_witness :
    (uploadStreamE cfgNone failEnv stB "C" "B" "text/plain" ".bin" []).1 =
      .error (.createFailed .otherFailure) :=
  (insert_failure_cleanup cfgNone failEnv stB "C" "B" "text/plain" ".bin" []
    bucketB ".bin" .otherFailure (by decide) (by decide) (by decide) (by decide)
    (by decide)).1

/-- A row found by (bucket, hash) lookup is in the table and carries
exactly that bucket and hash. -/
theorem getByBucketAndHash_ok {db : List Resource} {bucketID hash : String}
    {r : Resource} (h : getByBucketAndHash db bucketID hash = .ok r) :
    r ∈ db ∧ r.bucketID = bucketID ∧ r.hash = hash := by
  unfold getByBucketAndHash at h
  cases hf : db.find? (fun x => x.bucketID == bucketID && x.hash == hash) with
  | none => rw [hf] at h; cases h
  | some q =>
    rw [hf] at h
    cases h
    have hp := List.find?_some hf
    simp only [Bool.and_eq_true, beq_iff_eq] at hp
    exact ⟨List.mem_of_find?_eq_some hf, hp.1, hp.2⟩

/-- Claim C3: any successful UploadStream call — under any environment,
dedup hit or fresh insert — returns as digest the lowercase hexadecimal
SHA-256 of exactly the bytes read and as size the number of bytes read
(for the dedup path this uses the store wellformedness that rows carrying
this digest record the matching length); the zero-byte digest is the
well-known empty-content SHA-256 value. -/
theorem digest_and_size_correct (cfg : SysCfg) (env : UploadEnv) (st : St)
    (clientID bucketID contentType extension : String) (content : List Nat)
    (resp : ResourceResponse) (st2 : St) (tr : List Action)
    (hwf : ∀ r ∈ st.db, r.hash = sha256Hex content → r.size = content.length)
    (h : uploadStreamE cfg env st clientID bucketID contentType extension content =
      (.ok resp, st2, tr)) :
    resp.hash = sha256Hex content ∧ resp.size = content.length ∧
    sha256Hex [] = "e3b0c44298fc1c149afbf4c8996fb92427ae41e4649b934ca495991b7852b855" := by
  refine ?_
  have hmain : resp.hash = sha256Hex content ∧ resp.size = content.length := by
    simp only [uploadStreamE] at h
    split at h
    · cases h
    · split at h
      · split at h
        · cases h
        · split at h
          · rename_i existing heq
            cases h
            obtain ⟨hmem, _, hhash⟩ := getByBucketAndHash_ok heq
            exact ⟨hhash, by rw [respOf]; exact hwf existing hmem hhash⟩
          · split at h
            · cases h
            · rename_i r2 db2 heq
              cases h
              obtain ⟨hr, _⟩ := createResource_ok heq
              rw [hr]
              exact ⟨rfl, rfl⟩
      · cases h
  exact ⟨hmain.1, hmain.2, by decide⟩

/-- Witness for C3: the fresh upload of the two bytes 00 01. -/
theorem digest_and_size_correct_witness :
    resp01.hash = sha256Hex [0, 1] ∧ resp01.size = ([0, 1] : List Nat).length ∧
    sha256Hex [] = "e3b0c44298fc1c149afbf4c8996fb92427ae41e4649b934ca495991b7852b855" :=
  digest_and_size_correct cfgNone envN stB "C" "B" "text/plain" ".bin" [0, 1]
    resp01 st01 tr01 (by decide) (by decide)

/-- Claim C8, counterexample: a successful delete execution launches the
resource-deleted dispatch before the metadata delete commits — the trace
fails the dispatch-after-commit check. -/
theorem delete_dispatch_before_commit :
    (deleteResource cfgNone stDel "C" "B" (sha256Hex [])).1 = .ok () ∧
    dispatchAfterCommitB (deleteResource cfgNone stDel "C" "B" (sha256Hex [])).2.2
      false false = false := by decide

/-- Claim C8, amended: for uploads, every execution dispatches the
resource-created event only after the metadata insert committed, and a
failed upload never dispatches; for deletes, the dispatch is launched
right after the row lookup and before the metadata delete, so the trace
either is empty or begins with the resource-deleted dispatch, and when a
concurrent delete wins the race the operation fails with not-found yet
the deleted event has already been dispatched. -/
theorem dispatch_ordering :
    (∀ (cfg : SysCfg) (env : UploadEnv) (st : St)
        (clientID bucketID contentType extension : String) (content : List Nat),
      dispatchAfterCommitB
        (uploadStreamE cfg env st clientID bucketID contentType extension content).2.2
        false false = true ∧
      (∀ e, (uploadStreamE cfg env st clientID bucketID contentType extension content).1 =
          .error e →
        ∀ et rid url, Action.dispatchLaunched et rid url ∉
          (uploadStreamE cfg env st clientID bucketID contentType extension content).2.2)) ∧
    (∀ (cfg : SysCfg) (denv : DeleteEnv) (st : St) (clientID bucketID hash : String),
      (deleteE cfg denv st clientID bucketID hash).2.2 = [] ∨
      ∃ rid url rest,
        (deleteE cfg denv st clientID bucketID hash).2.2 =
          Action.dispatchLaunched evResourceDeleted rid url :: rest) ∧
    (∀ (cfg : SysCfg) (st : St) (clientID bucketID hash : String)
        (bucket : Bucket) (r : Resource),
      st.buckets.find? (fun b => b.id == bucketID) = some bucket →
      bucket.clientID = clientID →
      getByBucketAndHash st.db bucketID hash = .ok r →
      (deleteE cfg { raceDeleted := true } st clientID bucketID hash).1 =
        .error .resourceNotFound ∧
      (deleteE cfg { raceDeleted := true } st clientID bucketID hash).2.2 =
        [Action.dispatchLaunched evResourceDeleted r.id
          (buildDownloadURL cfg.publicURL bucket.id r.hash r.extension)]) := by
  refine ⟨?_, ?_, ?_⟩
  · intro cfg env st clientID bucketID contentType extension content
    constructor
    · simp only [uploadStreamE]
      split
      · rfl
      · split
        · split
          · rfl
          · split
            · rfl
            · split
              · split <;> simp [dispatchAfterCommitB]
              · simp [dispatchAfterCommitB, evResourceNew]
        · rfl
    · intro e herr et rid url hmem
      simp only [uploadStreamE] at herr hmem
      revert herr hmem
      split
      · intro _ hmem
        simp at hmem
      · split
        · split
          · intro _ hmem
            simp at hmem
          · split
            · intro herr _
              simp at herr
            · split
              · intro _ hmem
                simp only [List.mem_append, List.mem_singleton] at hmem
                rcases hmem with hmem | hmem
                · cases hmem
                · split at hmem <;> simp at hmem
              · intro herr _
                simp at herr
        · intro _ hmem
          simp at hmem
  · intro cfg denv st clientID bucketID hash
    simp only [deleteE]
    split
    · left; rfl
    · split
      · split
        · left; rfl
        · split
          · right; exact ⟨_, _, _, rfl⟩
          · right; exact ⟨_, _, _, rfl⟩
      · left; rfl
  · intro cfg st clientID bucketID hash bucket r hb hown hget
    have hcl : (bucket.clientID == clientID) = true := by simp [hown]
    have hidem : ((st.db.filter (fun x => !(x.bucketID == bucketID && x.hash == hash))).filter
        (fun x => !(x.bucketID == bucketID && x.hash == hash))) =
        st.db.filter (fun x => !(x.bucketID == bucketID && x.hash == hash)) := by
      rw [List.filter_filter]
      congr 1
      funext x
      rw [Bool.and_self]
    have hdel : deleteByBucketAndHash
        (st.db.filter (fun x => !(x.bucketID == bucketID && x.hash == hash)))
        bucketID hash = .error .resourceNotFound := by
      unfold deleteByBucketAndHash
      rw [hidem]
      simp
    constructor
    · simp only [deleteE, hb, hcl, if_true, hget, hdel]
    · simp only [deleteE, hb, hcl, if_true, hget, hdel]

/-- Witness for the amended C8 theorem: the upload half at a concrete
fresh upload, and the raced-delete half at the concrete winner state. -/
theorem dispatch_ordering_witness :
    dispatchAfterCommitB
      (uploadStreamE cfgNone envN stB "C" "B" "text/plain" ".bin" []).2.2
      false false = true ∧
    (deleteE cfgNone { raceDeleted := true } stDel "C" "B" (sha256Hex [])).1 =
      .error .resourceNotFound :=
  ⟨(dispatch_ordering.1 cfgNone envN stB "C" "B" "text/plain" ".bin" []).1,
   (dispatch_ordering.2.2 cfgNone stDel "C" "B" (sha256Hex []) bucketB winnerRow
     (by decide) (by decide) (by decide)).1⟩

/-- Filtering by a predicate implied by the search predicate does not
change the result of find?. -/
theorem find?_filter_of_imp (l : List (String × String))
    (p f : String × String → Bool) (h : ∀ x, p x = true → f x = true) :
    (l.filter f).find? p = l.find? p := by
  induction l with
  | nil => rfl
  | cons a t ih =>
    by_cases hf : f a = true
    · rw [List.filter_cons_of_pos hf]
      by_cases hp : p a = true
      · rw [List.find?_cons_of_pos _ hp, List.find?_cons_of_pos _ hp]
      · rw [List.find?_cons_of_neg _ (by simpa using hp),
          List.find?_cons_of_neg _ (by simpa using hp)]
        exact ih
    · rw [List.filter_cons_of_neg (by simpa using hf)]
      have hp : p a = false := by
        cases hpa : p a with
        | false => rfl
        | true => exact absurd (h a hpa) hf
      rw [List.find?_cons_of_neg _ (by simp [hp])]
      exact ih

/-- Behaviour of one Header.Set on a later lookup: the set key answers the
new value, any other key is unaffected. -/
theorem headerGet_headerSet (h : List (String × String)) (k v n : String) :
    headerGet (headerSet h k v) n =
      if canonicalMIMEHeaderKey k = canonicalMIMEHeaderKey n then some v
      else headerGet h n := by
  unfold headerGet headerSet
  rw [List.find?_append]
  by_cases hkn : canonicalMIMEHeaderKey k = canonicalMIMEHeaderKey n
  · rw [if_pos hkn]
    have h1 : ((h.filter (fun p => !(p.1 == canonicalMIMEHeaderKey k))).find?
        (fun p => p.1 == canonicalMIMEHeaderKey n)) = none := by
      rw [List.find?_eq_none]
      intro p hp hpred
      have hkeep := List.of_mem_filter hp
      simp only [beq_iff_eq] at hpred
      rw [hpred, hkn] at hkeep
      simp at hkeep
    rw [h1]
    simp [hkn]
  · have hbeq : (canonicalMIMEHeaderKey k == canonicalMIMEHeaderKey n) = false := by
      simp [hkn]
    have h2 : (([((canonicalMIMEHeaderKey k), v)] : List (String × String)).find?
        (fun p => p.1 == canonicalMIMEHeaderKey n)) = none := by
      simp [List.find?, hbeq]
    rw [if_neg hkn, h2]
    rw [find?_filter_of_imp h _ _ ?imp]
    · cases hfind : h.find? (fun p => p.1 == canonicalMIMEHeaderKey n) <;> rfl
    case imp =>
      intro x hx
      simp only [beq_iff_eq] at hx
      simp only [hx, Bool.not_eq_true', beq_eq_false_iff_ne, ne_eq]
      exact fun hh => hkn hh.symm

/-- Folding Header.Set over a pair list: the last matching pair wins,
otherwise the base header map answers. -/
theorem headerGet_applyHeaders (l : List (String × String))
    (h : List (String × String)) (n : String) :
    headerGet (applyHeaders h l) n = (findLast l n).or (headerGet h n) := by
  induction l generalizing h with
  | nil => simp [applyHeaders, findLast, Option.or]
  | cons p t ih =>
    have hstep : applyHeaders h (p :: t) = applyHeaders (headerSet h p.1 p.2) t := rfl
    rw [hstep, ih, headerGet_headerSet]
    have hrev : (p :: t).reverse = t.reverse ++ [p] := by simp
    unfold findLast
    rw [hrev, List.find?_append]
    cases hft : t.reverse.find?
        (fun q => canonicalMIMEHeaderKey q.1 == canonicalMIMEHeaderKey n) with
    | some q => simp [Option.or]
    | none =>
      simp only [Option.or, Option.map]
      by_cases hpn : canonicalMIMEHeaderKey p.1 = canonicalMIMEHeaderKey n
      · simp [List.find?, hpn]
      · have hbeq : (canonicalMIMEHeaderKey p.1 == canonicalMIMEHeaderKey n) = false := by
          simp [hpn]
        simp [List.find?, hbeq, hpn]

/-- Claim C7: the outbound webhook header set obeys the strict precedence
order — for any header name the delivered value is the caller-supplied
extra value if one matches, else the last matching configured value, else
the built-in default; the defaults are exactly Content-Type, User-Agent
and the event-type marker; and with configured X-Foo: a and extra
X-Foo: b the request carries X-Foo: b. -/
theorem webhook_header_precedence :
    (∀ (eventType : String) (configured extra : List (String × String)) (n : String),
      headerGet (buildWebhookHeaders eventType configured extra) n =
        (findLast extra n).or ((findLast configured n).or
          (headerGet (defaultWebhookHeaders eventType) n))) ∧
    (∀ eventType : String, defaultWebhookHeaders eventType =
      [("Content-Type", "application/json"), ("User-Agent", "AOUI-Drive-Webhook/1.0"),
       ("X-Webhook-Event", eventType)]) ∧
    (∀ eventType : String,
      headerGet (buildWebhookHeaders eventType [("X-Foo", "a")] [("X-Foo", "b")])
        "X-Foo" = some "b") := by
  refine ⟨?_, fun eventType => rfl, fun eventType => rfl⟩
  intro eventType configured extra n
  unfold buildWebhookHeaders
  rw [headerGet_applyHeaders, headerGet_applyHeaders]

/-- Claim C1: starting from a state with no row for (bucket, digest), a
first upload succeeds, and a second upload of byte-identical content with
the same parameters succeeds, returns the same resource id and digest,
leaves the state unchanged, and afterwards exactly one metadata row and
exactly one blob file exist for that (bucket, digest) pair. -/
theorem dedup_idempotent (cfg : SysCfg) (st : St)
    (clientID bucketID contentType extension : String) (content : List Nat)
    (id1 id2 : String) (t1 t2 : Nat) (bucket : Bucket) (ext0 : String)
    (hb : st.buckets.find? (fun b => b.id == bucketID) = some bucket)
    (hown : bucket.clientID = clientID)
    (hres : resolveStreamExt cfg.mimeExts contentType extension = .ok ext0)
    (hfresh : ∀ r ∈ st.db, ¬(r.bucketID = bucket.id ∧ r.hash = sha256Hex content)) :
    ∃ r1 st1 tr1 r2 tr2,
      uploadStream cfg id1 t1 st clientID bucketID contentType extension content =
        (.ok r1, st1, tr1) ∧
      uploadStream cfg id2 t2 st1 clientID bucketID contentType extension content =
        (.ok r2, st1, tr2) ∧
      r2.id = r1.id ∧ r2.hash = r1.hash ∧ r1.hash = sha256Hex content ∧
      (st1.db.filter (fun r =>
        r.bucketID == bucket.id && r.hash == sha256Hex content)).length = 1 ∧
      (st1.fs.filter (fun en => en.1 ==
        (bucket.id, buildFilename (sha256Hex content) (normalizeExt ext0)))).length = 1 := by
  have hcl : (bucket.clientID == clientID) = true := by simp [hown]
  have hnone : st.db.find?
      (fun r => r.bucketID == bucket.id && r.hash == sha256Hex content) = none := by
    rw [List.find?_eq_none]
    intro r hr hpred
    simp only [Bool.and_eq_true, beq_iff_eq] at hpred
    exact hfresh r hr hpred
  have hmiss : getByBucketAndHash st.db bucket.id (sha256Hex content) =
      .error .resourceNotFound := by
    unfold getByBucketAndHash
    rw [hnone]
  have hcreate : createResource (st.db ++ ([] : List Resource)) false
      { id := id1, bucketID := bucket.id, hash := sha256Hex content,
        size := content.length, contentType := contentType,
        extension := normalizeExt ext0, createdAt := t1 } =
      .ok ({ id := id1, bucketID := bucket.id, hash := sha256Hex content,
             size := content.length, contentType := contentType,
             extension := normalizeExt ext0, createdAt := t1 },
           (st.db ++ []) ++
             [{ id := id1, bucketID := bucket.id, hash := sha256Hex content,
                size := content.length, contentType := contentType,
                extension := normalizeExt ext0, createdAt := t1 }]) := by
    unfold createResource
    rw [if_neg (by simp)]
    rw [if_neg ?hany]
    case hany =>
      rw [List.append_nil]
      intro hany
      rw [List.any_eq_true] at hany
      obtain ⟨r, hr, hpred⟩ := hany
      simp only [Bool.and_eq_true, beq_iff_eq] at hpred
      exact hfresh r hr hpred
  have hhit2 : getByBucketAndHash
      ((st.db ++ []) ++
        [{ id := id1, bucketID := bucket.id, hash := sha256Hex content,
           size := content.length, contentType := contentType,
           extension := normalizeExt ext0, createdAt := t1 }])
      bucket.id (sha256Hex content) =
      .ok { id := id1, bucketID := bucket.id, hash := sha256Hex content,
            size := content.length, contentType := contentType,
            extension := normalizeExt ext0, createdAt := t1 } := by
    unfold getByBucketAndHash
    rw [List.append_nil, List.find?_append, hnone,
      List.find?_cons_of_pos _ (by simp)]
    rfl
  refine ⟨respOf cfg bucket
      { id := id1, bucketID := bucket.id, hash := sha256Hex content,
        size := content.length, contentType := contentType,
        extension := normalizeExt ext0, createdAt := t1 },
    { buckets := st.buckets,
      db := (st.db ++ []) ++
        [{ id := id1, bucketID := bucket.id, hash := sha256Hex content,
           size := content.length, contentType := contentType,
           extension := normalizeExt ext0, createdAt := t1 }],
      fs := fsPlace st.fs
        (bucket.id, buildFilename (sha256Hex content) (normalizeExt ext0)) content },
    [.blobPlaced bucket.id (buildFilename (sha256Hex content) (normalizeExt ext0)),
     .rowInserted
       { id := id1, bucketID := bucket.id, hash := sha256Hex content,
         size := content.length, contentType := contentType,
         extension := normalizeExt ext0, createdAt := t1 },
     .dispatchLaunched evResourceNew id1
       (buildDownloadURL cfg.publicURL bucket.id (sha256Hex content) (normalizeExt ext0))],
    respOf cfg bucket
      { id := id1, bucketID := bucket.id, hash := sha256Hex content,
        size := content.length, contentType := contentType,
        extension := normalizeExt ext0, createdAt := t1 },
    [], ?_, ?_, rfl, rfl, rfl, ?_, ?_⟩
  · simp only [uploadStream, uploadStreamE, hb, hcl, if_true, hres, hmiss, hcreate]
  · simp only [uploadStream, uploadStreamE, hb, hcl, if_true, hres, hhit2]
  · simp only [List.append_nil, List.filter_append]
    have h1 : st.db.filter
        (fun r => r.bucketID == bucket.id && r.hash == sha256Hex content) = [] := by
      rw [List.filter_eq_nil_iff]
      intro r hr hpred
      simp only [Bool.and_eq_true, beq_iff_eq] at hpred
      exact hfresh r hr hpred
    rw [h1]
    simp
  · simp only [fsPlace, List.filter_append]
    have h1 : ((st.fs.filter (fun en => !(en.1 ==
        (bucket.id, buildFilename (sha256Hex content) (normalizeExt ext0))))).filter
        (fun en => en.1 ==
          (bucket.id, buildFilename (sha256Hex content) (normalizeExt ext0)))) = [] := by
      rw [List.filter_eq_nil_iff]
      intro en hen hpred
      have hkeep := List.of_mem_filter hen
      rw [hpred] at hkeep
      cases hkeep
    rw [h1]
    simp

/-- Witness for C1: two uploads of the empty content into the fresh state. -/
theorem dedup_idempotent_witness :
    ∃ r1 st1 tr1 r2 tr2,
      uploadStream cfgNone "id1" 1 stB "C" "B" "text/plain" ".bin" [] =
        (.ok r1, st1, tr1) ∧
      uploadStream cfgNone "id2" 2 st1 "C" "B" "text/plain" ".bin" [] =
        (.ok r2, st1, tr2) ∧
      r2.id = r1.id ∧ r2.hash = r1.hash ∧ r1.hash = sha256Hex [] ∧
      (st1.db.filter (fun r =>
        r.bucketID == bucketB.id && r.hash == sha256Hex [])).length = 1 ∧
      (st1.fs.filter (fun en => en.1 ==
        (bucketB.id, buildFilename (sha256Hex []) (normalizeExt ".bin")))).length = 1 :=
  dedup_idempotent cfgNone stB "C" "B" "text/plain" ".bin" [] "id1" "id2" 1 2
    bucketB ".bin" (by decide) (by decide) (by decide) (by decide)

end AouiDrive
